import Mathlib

/-!
Verification development for the bounty-archive scraping pipeline.

The definitions below are a shallow embedding of the Python sources under
`src/scraping/`: the crawl engine (`scraper.py`), the static HTTP handler and
its link extraction (`handlers/static.py`), handler resolution
(`handlers/__init__.py`), URL categorization and the ignore list
(`config.py`), the idempotent store operations (`data.py`) and the validated
record constructors (`models.py`).  Network and filesystem effects are
represented by explicit oracle parameters; everything else is translated
directly from the source.
-/

namespace BountyArchive

/-! ## Python string primitives -/

/-- Models Python's `s.rstrip(c)` for a single strip character: removes every
trailing occurrence of `c`. -/
def stripRight (c : Char) (s : String) : String :=
  ⟨(s.data.reverse.dropWhile (fun a => a == c)).reverse⟩

/-- Helper for substring search: Boolean list-prefix test. -/
def prefixB : List Char → List Char → Bool
  | [], _ => true
  | _ :: _, [] => false
  | a :: as, b :: bs => a == b && prefixB as bs

/-- Helper for substring search over the suffixes of the haystack. -/
def substrAux (n : List Char) : List Char → Bool
  | [] => n.isEmpty
  | h :: t => prefixB n (h :: t) || substrAux n t

/-- Models Python's `needle in hay` test on strings (contiguous substring). -/
def substrB (needle hay : String) : Bool :=
  substrAux needle.data hay.data

/-- Models Python's `s.startswith(pre)`. -/
def pyStartsWith (s pre : String) : Bool :=
  prefixB pre.data s.data

/-- Models Python's `s.lower()` (ASCII lowercasing, as the sources apply it
to hosts, paths and patterns). -/
def lowerStr (s : String) : String :=
  ⟨s.data.map Char.toLower⟩

/-- Splits a character list at the first occurrence of `ch`; when `ch` is
absent the whole input is the first component.  Used to separate a path from
its query the way `urlparse` does. -/
def breakAtChar (ch : Char) : List Char → List Char × List Char
  | [] => ([], [])
  | c :: rest =>
    if c == ch then ([], rest)
    else
      let (a, b) := breakAtChar ch rest
      (c :: a, b)

/-- Splits a character list on every occurrence of `ch` (the pieces between
separators, like Python's `s.split(ch)`). -/
def splitChar (ch : Char) : List Char → List (List Char)
  | [] => [[]]
  | c :: rest =>
    if c == ch then [] :: splitChar ch rest
    else
      match splitChar ch rest with
      | [] => [[c]]
      | a :: t => (c :: a) :: t

/-- Splits a URL's characters at the first `://`, returning the scheme text
and the remainder, or `none` when no `://` occurs. -/
def schemeSplit (acc : List Char) : List Char → Option (List Char × List Char)
  | [] => none
  | c :: rest =>
    if prefixB [':', '/', '/'] (c :: rest) then some (acc.reverse, rest.drop 2)
    else schemeSplit (c :: acc) rest

/-- Models Python's `a or b` where `a` is an optional integer (`None` and `0`
are falsy, so either selects `b`). -/
def pyOrInt (a : Option Int) (b : Int) : Int :=
  match a with
  | some x => if x = 0 then b else x
  | none => b

/-- Models Python's `a or b` where `a` is an optional string (`None` and the
empty string are falsy, so either selects `b`). -/
def pyOrStr (a : Option String) (b : String) : String :=
  match a with
  | some s => if s = "" then b else s
  | none => b

/-- Models Python's f-string rendering of an `Optional[str]` value: `None`
prints as the literal text `None`. -/
def pyStrOfOpt (o : Option String) : String :=
  match o with
  | some s => s
  | none => "None"

/-- Models `sorted(<set built from the listed elements>)` from Python: the
distinct elements in ascending order. -/
def pySortedSet (l : List String) : List String :=
  l.dedup.insertionSort (fun a b => a ≤ b)

/-! ## Pages and fetch outcomes

`ScrapedPage` embeds the dataclass of `handlers/base.py` (the `bytes | str`
content is modelled as one `String`; the link fields are Python sets, modelled
as lists of their elements). -/

/-- Embeds the `ScrapedPage` dataclass of `handlers/base.py`. -/
structure ScrapedPage where
  url : String
  title : String
  content : String
  status_code : Int
  extension : String
  handler : String
  internal_links : List String := []
  external_links : List String := []
  social_links : List String := []
deriving DecidableEq, Repr

/-- Embeds the tuple returned by `PolkadotBountyScraper.scrape_page`
(`scraper.py` lines 88-101): the optional page (its `extension` field carries
the second tuple slot), the optional error code and message, and the handler
name.  A value of this type is what the network oracle passed to the crawl
engine produces for a URL. -/
structure ScrapePageResult where
  page : Option ScrapedPage
  error_code : Option Int
  error_message : Option String
  handler : String
deriving DecidableEq, Repr

/-- Embeds the per-URL dict stored in `url_results` by `scrape_recursive` and
`scrape_single` (`scraper.py`). -/
structure UrlResult where
  status : String
  error_code : Option Int
  error_message : Option String
  handler : String
deriving DecidableEq, Repr

/-! ## The crawl engine (`scraper.py` lines 155-272 and 274-374)

The loop state carries every mutable local of `scrape_recursive`; `visited`
is a Python set modelled as a duplicate-free insertion list, and the three
link accumulators are Python sets modelled as element lists (deduplicated
when the final result applies `sorted(...)`).  The extra `fetched` field is
the observable trace of `scrape_page` calls (url and depth, in call order).
Filesystem writes are abstracted by a path oracle `u2f` standing for
`url_to_filepath`; error-marker files are written but never recorded in
`files_created`, exactly as in the source. -/

/-- State of the `while queue:` loop of `scrape_recursive`. -/
structure CrawlState where
  visited : List String
  queue : List (String × Nat)
  all_internal : List String
  all_external : List String
  all_social : List String
  files_created : List String
  errors : List String
  url_results : List (String × UrlResult)
  fetched : List (String × Nat)
deriving DecidableEq, Repr

/-- Initial loop state of `scrape_recursive` (`scraper.py` lines 164-171). -/
def initState (seed : String) : CrawlState :=
  { visited := [], queue := [(seed, 0)], all_internal := [], all_external := []
    all_social := [], files_created := [], errors := [], url_results := []
    fetched := [] }

/-- Success branch of the loop body (`scraper.py` lines 192-210): record the
success, merge the page's links into the accumulators, and when
`depth < max_depth` enqueue the not-yet-visited internal links at
`depth + 1`. -/
def recordSuccess (maxD : Nat) (s : CrawlState) (url : String) (depth : Nat)
    (handler : String) (page : ScrapedPage) : CrawlState :=
  { s with
    url_results := s.url_results ++ [(url, ⟨"success", none, none, handler⟩)]
    all_internal := s.all_internal ++ page.internal_links
    all_external := s.all_external ++ page.external_links
    all_social := s.all_social ++ page.social_links
    queue :=
      if depth < maxD then
        s.queue ++
          ((page.internal_links.filter
              (fun l => decide (stripRight '/' l ∉ s.visited))).map
            (fun l => (l, depth + 1)))
      else s.queue }

/-- Non-200-response branch of the loop body (`scraper.py` lines 211-219). -/
def recordHttpFailure (s : CrawlState) (url : String) (handler : String)
    (page : ScrapedPage) (error_code : Option Int) (error_message : Option String) :
    CrawlState :=
  { s with
    url_results := s.url_results ++ [(url,
      ⟨"failed", some (pyOrInt error_code page.status_code),
        some (pyOrStr error_message ("HTTP " ++ toString page.status_code)),
        handler⟩)]
    errors := s.errors ++
      ["Non-200 response for " ++ url ++ ": HTTP " ++ toString page.status_code] }

/-- Failed-fetch branch of the loop body (`scraper.py` lines 220-245); the
error marker file it writes is not added to `files_created`. -/
def recordNetFailure (s : CrawlState) (url : String) (handler : String)
    (error_code : Option Int) (error_message : Option String) : CrawlState :=
  { s with
    url_results := s.url_results ++ [(url,
      ⟨"failed", error_code, error_message, handler⟩)]
    errors := s.errors ++
      ["Failed to fetch: " ++ url ++ " (" ++ pyStrOfOpt error_message ++ ")"] }

/-- One iteration of the `while queue:` loop of `scrape_recursive`
(`scraper.py` lines 173-248), parameterized by the fetch oracle `o`
(the behaviour of `scrape_page` for each URL of this job) and the path
oracle `u2f` (standing for `url_to_filepath`). -/
def crawlStep (o : String → ScrapePageResult) (u2f : String → String → String)
    (maxD : Nat) (s : CrawlState) : CrawlState :=
  match s.queue with
  | [] => s
  | (url, depth) :: rest =>
    let normalized := stripRight '/' url
    if normalized ∈ s.visited then { s with queue := rest }
    else
      let s1 := { s with visited := s.visited ++ [normalized], queue := rest
                         fetched := s.fetched ++ [(url, depth)] }
      let res := o url
      match res.page with
      | some page =>
        let s2 := { s1 with files_created := s1.files_created ++ [u2f url page.extension] }
        if page.status_code = 200 then
          recordSuccess maxD s2 url depth res.handler page
        else
          recordHttpFailure s2 url res.handler page res.error_code res.error_message
      | none =>
          recordNetFailure s1 url res.handler res.error_code res.error_message

/-- Fuel-indexed unfolding of the `while queue:` loop; `none` when the fuel is
insufficient to exhaust the queue. -/
def crawlLoop (o : String → ScrapePageResult) (u2f : String → String → String)
    (maxD : Nat) : Nat → CrawlState → Option CrawlState
  | 0, s => if s.queue.isEmpty then some s else none
  | n + 1, s =>
    if s.queue.isEmpty then some s
    else crawlLoop o u2f maxD n (crawlStep o u2f maxD s)

/-- Embeds the result dict built by `scrape_recursive` and `scrape_single`
(`scraper.py` lines 259-272 and the three returns of `scrape_single`). -/
structure ScrapeOutcome where
  status : String
  pages_scraped : Nat
  files_created : List String
  visited_urls : List String
  url_results : List (String × UrlResult)
  internal : List String
  external : List String
  social : List String
  errors : List String
  handler : Option String
deriving DecidableEq, Repr

/-- Terminal-status derivation of `scrape_recursive` (`scraper.py` lines
250-257): any HTTP response (witnessed by a present `error_code`) counts as
non-fatal. -/
def deriveStatus (s : CrawlState) : String :=
  let failed_results := (s.url_results.map Prod.snd).filter (fun r => r.status == "failed")
  let response_only := !failed_results.isEmpty &&
    failed_results.all (fun r => r.error_code.isSome)
  if !s.files_created.isEmpty then
    if s.errors.isEmpty || response_only then "completed" else "partial"
  else
    if response_only || s.errors.isEmpty then "completed" else "failed"

/-- Result assembly of `scrape_recursive` (`scraper.py` lines 259-272). -/
def finishRecursive (seed : String) (s : CrawlState) : ScrapeOutcome :=
  { status := deriveStatus s
    pages_scraped := s.files_created.length
    files_created := s.files_created
    visited_urls := pySortedSet s.visited
    url_results := s.url_results
    internal := pySortedSet s.all_internal
    external := pySortedSet s.all_external
    social := pySortedSet s.all_social
    errors := s.errors
    handler := (s.url_results.lookup seed).map (fun r => r.handler) }

/-- Embeds `PolkadotBountyScraper.scrape_recursive` (`scraper.py` lines
155-272) for a job whose bounty folder exists, as a function of the fetch
oracle, the path oracle, the seed URL, `max_depth`, and loop fuel. -/
def scrape_recursive (o : String → ScrapePageResult) (u2f : String → String → String)
    (seed : String) (maxD fuel : Nat) : Option ScrapeOutcome :=
  (crawlLoop o u2f maxD fuel (initState seed)).map (finishRecursive seed)

/-- Embeds `PolkadotBountyScraper.scrape_single` (`scraper.py` lines 274-374)
for a job whose bounty folder exists. -/
def scrape_single (o : String → ScrapePageResult) (u2f : String → String → String)
    (seed : String) : ScrapeOutcome :=
  let res := o seed
  match res.page with
  | some page =>
    let fp := u2f seed page.extension
    if page.status_code = 200 then
      { status := "completed", pages_scraped := 1, files_created := [fp]
        visited_urls := [seed]
        url_results := [(seed, ⟨"success", none, none, res.handler⟩)]
        internal := pySortedSet page.internal_links
        external := pySortedSet page.external_links
        social := pySortedSet page.social_links
        errors := [], handler := some res.handler }
    else
      { status := "completed", pages_scraped := 0, files_created := [fp]
        visited_urls := [seed]
        url_results := [(seed,
          ⟨"failed", some (pyOrInt res.error_code page.status_code),
            some (pyOrStr res.error_message ("HTTP " ++ toString page.status_code)),
            res.handler⟩)]
        internal := [], external := [], social := []
        errors := ["Non-200 response: HTTP " ++ toString page.status_code]
        handler := some res.handler }
  | none =>
      { status := if res.error_code.isSome then "completed" else "failed"
        pages_scraped := 0, files_created := []
        visited_urls := [seed]
        url_results := [(seed, ⟨"failed", res.error_code, res.error_message, res.handler⟩)]
        internal := [], external := [], social := []
        errors := ["Failed to fetch " ++ seed ++ ": " ++ pyStrOfOpt res.error_message]
        handler := some res.handler }

/-! ## URL parsing model

`urllib.parse.urlparse` is Python standard library, not repository code; the
model below reproduces its behaviour on the absolute `http(s)` URLs (without
fragments or userinfo) that the claims range over: the scheme is the
lowercased text before `://`, the netloc runs to the first `/`, `?` or `#`,
and the query is everything after the first `?`. -/

/-- Result of `urlparse` restricted to the components the sources read. -/
structure ParsedUrl where
  scheme : String
  netloc : String
  path : String
  query : String
deriving DecidableEq, Repr

/-- Models `urllib.parse.urlparse` for absolute `http(s)` URLs without
fragments (and, with an empty scheme and netloc, for scheme-less
strings). -/
def parseUrl (url : String) : ParsedUrl :=
  match schemeSplit [] url.data with
  | none =>
    let (path, query) := breakAtChar '?' url.data
    ⟨"", "", ⟨path⟩, ⟨query⟩⟩
  | some (scheme, rest) =>
    let netloc := rest.takeWhile (fun c => !(c == '/' || c == '?' || c == '#'))
    let tail := rest.drop netloc.length
    let (path, query) := breakAtChar '?' tail
    ⟨lowerStr ⟨scheme⟩, ⟨netloc⟩, ⟨path⟩, ⟨query⟩⟩

/-- Models `urlparse(url).netloc` (used by `config.is_ignored` and
`HandlerRegistry.resolve`). -/
def netlocOf (url : String) : String :=
  (parseUrl url).netloc

/-! ## Configuration predicates (`config.py`) -/

/-- Configuration consumed by link extraction.  `ignored` lists the `url`
field of each entry of the `ignored:` config section
(`ScrapeConfig.ignored_urls`).  `social_domains` is the configured
social-domain set; `handlers/static.py` reads `config.social_domains`, which
`ScrapeConfig` in `config.py` does not define — the field is modelled from
the spec: a set of hosts classified as social. -/
structure LinkConfig where
  social_domains : List String
  ignored : List String
deriving DecidableEq, Repr

/-- Embeds the Boolean component of `ScrapeConfig.is_ignored` (`config.py`
lines 143-171): an exact match of the trailing-slash-normalized URL, or a
netloc of an ignored entry occurring as substring of the URL's netloc. -/
def is_ignored (cfg : LinkConfig) (url : String) : Bool :=
  let url_normalized := stripRight '/' url
  cfg.ignored.any (fun item =>
    let ignored_url := stripRight '/' item
    url_normalized == ignored_url ||
      (netlocOf ignored_url != "" && substrB (netlocOf ignored_url) (netlocOf url)))

/-! ## Link extraction (`handlers/static.py` lines 82-116) -/

/-- Normalized URL string built by `_extract_links` (`static.py` lines
98-100): scheme, netloc, trailing-slash-stripped path, and the query when
present. -/
def unparseNormalized (p : ParsedUrl) : String :=
  let base := p.scheme ++ "://" ++ p.netloc ++ stripRight '/' p.path
  if p.query != "" then base ++ "?" ++ p.query else base

/-- Embeds `StaticHttpScraper._extract_links` (`static.py` lines 82-116).
Each anchor is given as the `urlparse(urljoin(base_url, href))` of its
`href`; the three returned buckets are Python sets, modelled as lists in
anchor order.  Per anchor: non-`http(s)` schemes are skipped, the normalized
URL is compared against the trailing-slash-stripped base URL
(self-reference), the ignore list drops the link, and otherwise the link is
bucketed as social, internal, or external. -/
def extract_links (cfg : LinkConfig) (base_url : String)
    (anchors : List ParsedUrl) : List String × List String × List String :=
  let base_parsed := parseUrl base_url
  let base_path := stripRight '/' base_parsed.path
  anchors.foldl (fun acc p =>
    let (ints, exts, socs) := acc
    if !(p.scheme == "http" || p.scheme == "https") then acc
    else
      let normalized := unparseNormalized p
      if normalized == stripRight '/' base_url then acc
      else if is_ignored cfg normalized then acc
      else if p.netloc ∈ cfg.social_domains then (ints, exts, socs ++ [normalized])
      else if p.netloc == base_parsed.netloc && pyStartsWith p.path base_path then
        (ints ++ [normalized], exts, socs)
      else (ints, exts ++ [normalized], socs))
    ([], [], [])

/-! ## Handler resolution (`handlers/__init__.py` lines 13-42)

Handlers are identified by their `handler_name` string; the registry is the
ordered list of `(patterns, handler)` pairs built by `register`. -/

/-- Match test for one registry entry: some pattern of the entry is not the
wildcard and its lowercasing is a substring of the (lowercased) host.  This
is the body of the two nested `for` loops of `HandlerRegistry.resolve`. -/
def entryMatches (domain : String) (patterns : List String) : Bool :=
  patterns.any (fun pat => pat != "*" && substrB (lowerStr pat) domain)

/-- Inner iteration of `HandlerRegistry.resolve`: first entry whose pattern
set matches the domain. -/
def resolveAux (domain : String) : List (List String × String) → Option String
  | [] => none
  | (patterns, h) :: rest =>
    if entryMatches domain patterns then some h else resolveAux domain rest

/-- Embeds `HandlerRegistry.resolve` (`handlers/__init__.py` lines 23-35):
lowercase the URL's host, scan the registry in registration order, and fall
back to the default static handler. -/
def resolve (registry : List (List String × String)) (url : String) : String :=
  let domain := lowerStr (netlocOf url)
  match resolveAux domain registry with
  | some h => h
  | none => "static_http"

/-- The registry constructed by `HandlerRegistry.__init__`: the wildcard
entry for the default static handler. -/
def handler_registry : List (List String × String) :=
  [(["*"], "static_http")]

/-- Restatement of handler resolution in the words of the specification: the
first registered entry having a non-wildcard pattern that is a
case-insensitive substring of the URL's host wins; otherwise the default
`static_http` handler is returned. -/
def resolveSpec (registry : List (List String × String)) (url : String) : String :=
  let domain := lowerStr (netlocOf url)
  ((registry.find? (fun e => entryMatches domain e.1)).map Prod.snd).getD "static_http"

/-! ## URL categorization (`config.py` lines 89-121) -/

/-- Categorization tables of `ScrapeConfig`: the `(pattern, categories)`
pairs of `categorization.domains` and `categorization.paths`.  Python allows
a single string as the category value; that case is the singleton list. -/
structure CatConfig where
  domain_categories : List (String × List String)
  path_categories : List (String × List String)
deriving DecidableEq, Repr

/-- Embeds `ScrapeConfig.categorize_url` (`config.py` lines 89-121).  The
`parsed` argument is the outcome of the `urlparse` call inside the `try:`
block — `.ok (netloc, path)` normally, `.error e` when it raises, in which
case the `except` branch returns `["other"]`.  The Python set of categories
and the final `sorted(list(categories))` are modelled by erasing duplicates
and sorting. -/
def categorize_url (cfg : CatConfig) (parsed : Except String (String × String)) :
    List String :=
  match parsed with
  | .error _ => ["other"]
  | .ok (netloc, path) =>
    let domain := lowerStr netloc
    let pathL := lowerStr path
    let cats := cfg.domain_categories.foldl
      (fun acc pc => if substrB (lowerStr pc.1) domain then acc ++ pc.2 else acc) []
    let cats := cfg.path_categories.foldl
      (fun acc pc => if substrB (lowerStr pc.1) pathL then acc ++ pc.2 else acc) cats
    let cats := if cats.isEmpty then ["other"] else cats
    pySortedSet cats

/-! ## Data models (`models.py`)

Each dataclass becomes a structure; its `__post_init__` validation becomes a
`make` function returning `Except` — `.error msg` models the raised
`ValueError(msg)`.  Enum-typed fields are taken already converted, so the
string-to-enum coercion branches of `__post_init__` are identities here. -/

/-- Embeds the `SuggestionType` enum of `models.py`. -/
inductive SuggestionType where
  | scrape
  | associated_url
  | social
deriving DecidableEq, Repr

/-- Embeds the `ScrapeMode` enum of `models.py`. -/
inductive ScrapeMode where
  | single
  | recursive
deriving DecidableEq, Repr

/-- Embeds the `Suggestion` dataclass of `models.py`. -/
structure Suggestion where
  bounty_id : Int
  url : String
  source : String
  categories : List String
  type : SuggestionType
  mode : Option String := none
  max_depth : Option Int := none
  discovered_at : Option String := none
deriving DecidableEq, Repr

/-- Embeds `Suggestion.__post_init__` (`models.py` lines 46-56) as a
validated constructor. -/
def Suggestion.make (bounty_id : Int) (url source : String)
    (categories : List String) (type : SuggestionType) (mode : Option String)
    (max_depth : Option Int) (discovered_at : Option String) :
    Except String Suggestion :=
  if !(pyStartsWith url "http") then .error ("Invalid URL: " ++ url)
  else if bounty_id ≤ 0 then .error ("Invalid bounty_id: " ++ toString bounty_id)
  else .ok { bounty_id, url, source
             categories := if categories.isEmpty then ["other"] else categories
             type, mode, max_depth, discovered_at }

/-- Embeds the `QueueEntry` dataclass of `models.py`. -/
structure QueueEntry where
  bounty_id : Int
  url : String
  mode : ScrapeMode
  max_depth : Int := 1
  source : String := "Unknown"
  categories : List String := ["other"]
  type : String := "scrape"
  discovered_at : Option String := none
deriving DecidableEq, Repr

/-- Embeds `QueueEntry.__post_init__` (`models.py` lines 92-102) as a
validated constructor. -/
def QueueEntry.make (bounty_id : Int) (url : String) (mode : ScrapeMode)
    (max_depth : Int) (source : String) (categories : List String)
    (type : String) (discovered_at : Option String) : Except String QueueEntry :=
  if !(pyStartsWith url "http") then .error ("Invalid URL: " ++ url)
  else if bounty_id ≤ 0 then .error ("Invalid bounty_id: " ++ toString bounty_id)
  else if max_depth < 0 ∨ max_depth > 9 then
    .error ("Invalid max_depth: " ++ toString max_depth)
  else .ok { bounty_id, url, mode, max_depth, source, categories, type, discovered_at }

/-- Embeds the `IndexEntry` dataclass of `models.py`. -/
structure IndexEntry where
  url : String
  bounty_id : Int
  scraped_at : String
  location : String
  source : String := "Unknown"
  categories : List String := ["other"]
  type : String := "scrape"
  discovered_at : Option String := none
  status : String := "success"
  error_code : Option Int := none
  error_message : Option String := none
deriving DecidableEq, Repr

/-- Embeds `IndexEntry.__post_init__` (`models.py` lines 141-148) as a
validated constructor. -/
def IndexEntry.make (url : String) (bounty_id : Int) (scraped_at location : String)
    (source : String) (categories : List String) (type : String)
    (discovered_at : Option String) (status : String) (error_code : Option Int)
    (error_message : Option String) : Except String IndexEntry :=
  if !(pyStartsWith url "http") then .error ("Invalid URL: " ++ url)
  else if bounty_id ≤ 0 then .error ("Invalid bounty_id: " ++ toString bounty_id)
  else if !(status == "success" || status == "failed") then
    .error ("Invalid status: " ++ status)
  else .ok { url, bounty_id, scraped_at, location, source, categories, type
             discovered_at, status, error_code, error_message }

/-- Embeds the `DiscoveredLink` dataclass of `models.py`. -/
structure DiscoveredLink where
  url : String
  source_url : String
  bounty_id : Int
  categories : List String
  discovered_at : String
deriving DecidableEq, Repr

/-- Embeds `DiscoveredLink.__post_init__` (`models.py` lines 183-192) as a
validated constructor. -/
def DiscoveredLink.make (url source_url : String) (bounty_id : Int)
    (categories : List String) (discovered_at : String) :
    Except String DiscoveredLink :=
  if !(pyStartsWith url "http") then .error ("Invalid URL: " ++ url)
  else if !(pyStartsWith source_url "http") then
    .error ("Invalid source_url: " ++ source_url)
  else if bounty_id ≤ 0 then .error ("Invalid bounty_id: " ++ toString bounty_id)
  else .ok { url, source_url, bounty_id
             categories := if categories.isEmpty then ["other"] else categories
             discovered_at }

/-! ## Store operations (`data.py`)

`add_to_index`, `add_to_queue`, `add_suggestions` and `add_links` all follow
the same shape: build the set of natural keys already present, then append
each new entry whose key is absent, extending the key set as entries are
appended.  `addByKey` captures that shape; the membership test is against
the keys of the accumulated list, which coincide with the growing
`existing_urls`/`existing` set of the source. -/

/-- Keyed deduplicating append shared by the four `add_*` methods of
`ScrapeData`. -/
def addByKey {α κ : Type} [DecidableEq κ] (key : α → κ)
    (cur new : List α) : List α :=
  new.foldl (fun acc e => if key e ∈ acc.map key then acc else acc ++ [e]) cur

/-- Embeds `ScrapeData.add_to_index` (`data.py` lines 79-93): no duplicates
by URL. -/
def add_to_index (index entries : List IndexEntry) : List IndexEntry :=
  addByKey (fun e => e.url) index entries

/-- Embeds `ScrapeData.add_to_queue` (`data.py` lines 182-196): no
duplicates by URL. -/
def add_to_queue (queue entries : List QueueEntry) : List QueueEntry :=
  addByKey (fun e => e.url) queue entries

/-- Embeds `ScrapeData.add_suggestions` (`data.py` lines 271-285): no
duplicates by URL. -/
def add_suggestions (suggestions new_suggestions : List Suggestion) : List Suggestion :=
  addByKey (fun s => s.url) suggestions new_suggestions

/-- Embeds `ScrapeData.add_links` (`data.py` lines 139-154): no duplicates
by the `(url, source_url)` pair. -/
def add_links (links new_links : List DiscoveredLink) : List DiscoveredLink :=
  addByKey (fun l => (l.url, l.source_url)) links new_links

/-! ## Static HTTP fetch (`handlers/static.py` lines 17-50) -/

/-- HTTP response as observed by `StaticHttpScraper.fetch`: the status code,
the `content-type` header, and the body (the `text`/`content` distinction is
not observed by any claim and is collapsed to one string). -/
structure HttpResponse where
  status_code : Int
  content_type : String
  body : String
deriving DecidableEq, Repr

/-- Models `pathlib.Path(path).suffix` from the Python standard library: the
extension of the final path component, empty when the final dot is leading,
trailing, or absent. -/
def pathSuffix (p : String) : String :=
  let name : String := ⟨(((splitChar '/' p.data).filter (fun s => !s.isEmpty)).getLastD [])⟩
  let n := name.data
  let after := (n.reverse.takeWhile (fun c => !(c == '.'))).reverse
  if after.length = n.length then ""
  else if after.length = 0 then ""
  else if after.length + 1 = n.length then ""
  else ⟨'.' :: after⟩

/-- Embeds `StaticHttpScraper._get_file_extension` (`static.py` lines
118-138): content-type driven extension with URL-suffix then `.html`
fallback. -/
def get_file_extension (content_type : String) (url : String) : String :=
  if substrB "text/html" content_type then ".html"
  else if substrB "application/pdf" content_type then ".pdf"
  else if substrB "application/json" content_type then ".json"
  else if substrB "text/plain" content_type then ".txt"
  else if substrB "text/xml" content_type || substrB "application/xml" content_type then ".xml"
  else if substrB "text/markdown" content_type then ".md"
  else
    let path := (parseUrl url).path
    if substrB "." path then
      let ext := pathSuffix path
      if ext != "" then ext else ".html"
    else ".html"

/-- Embeds `StaticHttpScraper.fetch` (`static.py` lines 17-50).  `env` is
the network: the `session.get` response, or `.error e` when it raises (the
`except` branch returns `(None, None, str(e))`).  `titleOf` stands for
`_extract_title`, whose HTML parsing is outside the claims.  On any
response a page is built; a non-200 status additionally yields
`error_code = status` and `error_message = "HTTP <status>"`. -/
def static_fetch (titleOf : HttpResponse → String → String)
    (env : String → Except String HttpResponse) (url : String) :
    Option ScrapedPage × Option Int × Option String :=
  match env url with
  | .error e => (none, none, some e)
  | .ok response =>
    let content_type := lowerStr response.content_type
    let extension := get_file_extension content_type url
    let title := titleOf response url
    let page : ScrapedPage :=
      { url := url, title := title, content := response.body
        status_code := response.status_code, extension := extension
        handler := "static_http" }
    if response.status_code ≠ 200 then
      (some page, some response.status_code, some ("HTTP " ++ toString response.status_code))
    else
      (some page, none, none)

/-! ## Crawl-loop lemmas -/

/-- A state with an exhausted frontier is a fixed point of the loop. -/
lemma crawlLoop_nil_queue (o : String → ScrapePageResult) (u2f : String → String → String)
    (maxD fuel : Nat) (s : CrawlState) (h : s.queue = []) :
    crawlLoop o u2f maxD fuel s = some s := by
  cases fuel <;> simp [crawlLoop, h]

/-- The loop only returns states with an exhausted frontier. -/
lemma crawlLoop_queue_eq_nil (o : String → ScrapePageResult) (u2f : String → String → String)
    (maxD : Nat) :
    ∀ fuel s s', crawlLoop o u2f maxD fuel s = some s' → s'.queue = [] := by
  intro fuel
  induction fuel with
  | zero =>
    intro s s' h
    by_cases he : s.queue.isEmpty
    · simp only [crawlLoop, he, if_true, Option.some.injEq] at h
      subst h
      exact List.isEmpty_iff.mp he
    · simp [crawlLoop, he] at h
  | succ n ih =>
    intro s s' h
    by_cases he : s.queue.isEmpty
    · simp only [crawlLoop, he, if_true, Option.some.injEq] at h
      subst h
      exact List.isEmpty_iff.mp he
    · simp only [crawlLoop, he, if_false, Bool.false_eq_true] at h
      exact ih _ _ h

/-- Invariant principle for the loop: a property preserved by every step on a
non-exhausted state carries from the initial state to the returned one. -/
lemma crawlLoop_inv (o : String → ScrapePageResult) (u2f : String → String → String)
    (maxD : Nat) (P : CrawlState → Prop)
    (hstep : ∀ t, t.queue ≠ [] → P t → P (crawlStep o u2f maxD t)) :
    ∀ fuel s s', crawlLoop o u2f maxD fuel s = some s' → P s → P s' := by
  intro fuel
  induction fuel with
  | zero =>
    intro s s' h hp
    by_cases he : s.queue.isEmpty
    · simp only [crawlLoop, he, if_true, Option.some.injEq] at h
      exact h ▸ hp
    · simp [crawlLoop, he] at h
  | succ n ih =>
    intro s s' h hp
    by_cases he : s.queue.isEmpty
    · simp only [crawlLoop, he, if_true, Option.some.injEq] at h
      exact h ▸ hp
    · simp only [crawlLoop, he, if_false, Bool.false_eq_true] at h
      exact ih _ _ h (hstep s (fun hn => he (by simp [hn])) hp)

/-- C2 invariant: the normalized fetch trace is duplicate-free and contained
in the visited set. -/
def DedupInv (s : CrawlState) : Prop :=
  (s.fetched.map (fun p => stripRight '/' p.1)).Nodup ∧
  ∀ p ∈ s.fetched, stripRight '/' p.1 ∈ s.visited

lemma crawlStep_dedupInv (o : String → ScrapePageResult) (u2f : String → String → String)
    (maxD : Nat) (t : CrawlState) (hne : t.queue ≠ []) (hp : DedupInv t) :
    DedupInv (crawlStep o u2f maxD t) := by
  obtain ⟨hnd, hsub⟩ := hp
  rcases hq : t.queue with _ | ⟨⟨url, depth⟩, rest⟩
  · exact absurd hq hne
  by_cases hv : stripRight '/' url ∈ t.visited
  · simp only [crawlStep, hq, if_pos hv]
    exact ⟨hnd, hsub⟩
  · have hnotmem : stripRight '/' url ∉ t.fetched.map (fun p => stripRight '/' p.1) := by
      intro hmem
      obtain ⟨p, hp1, hp2⟩ := List.mem_map.mp hmem
      exact hv (hp2 ▸ hsub p hp1)
    have hnd' : ((t.fetched ++ [(url, depth)]).map (fun p => stripRight '/' p.1)).Nodup := by
      simp only [List.map_append, List.map_cons, List.map_nil]
      simp [List.nodup_append, hnd, hnotmem]
    have hsub' : ∀ p ∈ t.fetched ++ [(url, depth)],
        stripRight '/' p.1 ∈ t.visited ++ [stripRight '/' url] := by
      intro p hpmem
      rcases List.mem_append.mp hpmem with hold | hnew
      · exact List.mem_append_left _ (hsub p hold)
      · simp only [List.mem_singleton] at hnew
        subst hnew
        simp
    simp only [crawlStep, hq, if_neg hv]
    rcases hpg : (o url).page with _ | page
    · simp only [hpg, recordNetFailure]
      exact ⟨hnd', hsub'⟩
    · simp only [hpg]
      by_cases hs : page.status_code = 200
      · simp only [if_pos hs, recordSuccess]
        exact ⟨hnd', hsub'⟩
      · simp only [if_neg hs, recordHttpFailure]
        exact ⟨hnd', hsub'⟩

/-- C2.  For every recursive job, no URL is fetched more than once within the
job: the trace of `scrape_page` calls recorded by the loop, taken after
trailing-slash normalization (`url.rstrip('/')`), is duplicate-free — two
frontier entries with the same normalized URL yield at most one fetch, no
matter how many link paths reach that URL. -/
theorem crawl_fetch_dedup (o : String → ScrapePageResult)
    (u2f : String → String → String) (maxD : Nat) (seed : String) (fuel : Nat)
    (s : CrawlState) (h : crawlLoop o u2f maxD fuel (initState seed) = some s) :
    (s.fetched.map (fun p => stripRight '/' p.1)).Nodup :=
  (crawlLoop_inv o u2f maxD DedupInv (crawlStep_dedupInv o u2f maxD)
    fuel _ s h ⟨by simp [initState], by simp [initState]⟩).1

/-- Fetch oracle for the dedup witness: the seed succeeds and links to the
same child twice (with and without a trailing slash); the child fails. -/
def c2_oracle : String → ScrapePageResult := fun u =>
  if u == "https://a.com/x" then
    ⟨some { url := u, title := "t", content := "c", status_code := 200, extension := ".html"
            handler := "static_http"
            internal_links := ["https://a.com/x/c", "https://a.com/x/c/"] },
      none, none, "static_http"⟩
  else ⟨none, none, some "boom", "static_http"⟩

/-- Path oracle used by the concrete crawl runs below. -/
def c2_u2f : String → String → String := fun u e => u ++ e

/-- Terminal state of the crawl driven by `c2_oracle` from seed
`https://a.com/x` with `max_depth = 1`: the twice-linked child is fetched
once. -/
def c2_state : CrawlState :=
  { visited := ["https://a.com/x", "https://a.com/x/c"]
    queue := []
    all_internal := ["https://a.com/x/c", "https://a.com/x/c/"]
    all_external := []
    all_social := []
    files_created := ["https://a.com/x.html"]
    errors := ["Failed to fetch: https://a.com/x/c (boom)"]
    url_results := [("https://a.com/x",
                     { status := "success", error_code := none, error_message := none
                       handler := "static_http" }),
                    ("https://a.com/x/c",
                     { status := "failed", error_code := none, error_message := some "boom"
                       handler := "static_http" })]
    fetched := [("https://a.com/x", 0), ("https://a.com/x/c", 1)] }

/-- Witness for C2 at a concrete crawl. -/
theorem crawl_fetch_dedup_witness :
    (c2_state.fetched.map (fun p => stripRight '/' p.1)).Nodup :=
  crawl_fetch_dedup c2_oracle c2_u2f 1 "https://a.com/x" 5 c2_state (by decide)

/-- Provenance of a frontier or trace entry: it is the seed at depth `0`, or
some already-fetched URL at a depth strictly below `max_depth` answered with
a 200 page listing it among its internal links, one hop deeper. -/
def FetchOrigin (o : String → ScrapePageResult) (maxD : Nat) (seed : String)
    (fetched : List (String × Nat)) (p : String × Nat) : Prop :=
  p = (seed, 0) ∨ ∃ q ∈ fetched, q.2 < maxD ∧ p.2 = q.2 + 1 ∧
    ∃ page, (o q.1).page = some page ∧ page.status_code = 200 ∧
      p.1 ∈ page.internal_links

lemma FetchOrigin.mono {o : String → ScrapePageResult} {maxD : Nat} {seed : String}
    {l1 l2 : List (String × Nat)} {p : String × Nat} (h : ∀ x ∈ l1, x ∈ l2) :
    FetchOrigin o maxD seed l1 p → FetchOrigin o maxD seed l2 p := by
  rintro (h0 | ⟨q, hq, hrest⟩)
  · exact Or.inl h0
  · exact Or.inr ⟨q, h q hq, hrest⟩

/-- C3 invariant: every frontier and trace entry sits at depth at most
`max_depth` and carries a provenance. -/
def DepthOriginInv (o : String → ScrapePageResult) (maxD : Nat) (seed : String)
    (s : CrawlState) : Prop :=
  (∀ q ∈ s.queue, q.2 ≤ maxD) ∧ (∀ p ∈ s.fetched, p.2 ≤ maxD) ∧
  ∀ p ∈ s.fetched ++ s.queue, FetchOrigin o maxD seed s.fetched p

lemma crawlStep_depthOriginInv (o : String → ScrapePageResult)
    (u2f : String → String → String) (maxD : Nat) (seed : String) (t : CrawlState)
    (hne : t.queue ≠ []) (hp : DepthOriginInv o maxD seed t) :
    DepthOriginInv o maxD seed (crawlStep o u2f maxD t) := by
  obtain ⟨hqd, hfd, horig⟩ := hp
  rcases hq : t.queue with _ | ⟨⟨url, depth⟩, rest⟩
  · exact absurd hq hne
  have hqd' : ∀ q ∈ rest, q.2 ≤ maxD :=
    fun q hq' => hqd q (hq ▸ List.mem_cons_of_mem _ hq')
  have hdepth : depth ≤ maxD := hqd (url, depth) (hq ▸ List.mem_cons_self _ _)
  have hfsub : ∀ x ∈ t.fetched, x ∈ t.fetched ++ [(url, depth)] :=
    fun x hx => List.mem_append_left _ hx
  have hfd' : ∀ p ∈ t.fetched ++ [(url, depth)], p.2 ≤ maxD := by
    intro p hpmem
    rcases List.mem_append.mp hpmem with h1 | h1
    · exact hfd p h1
    · simp only [List.mem_singleton] at h1
      exact h1 ▸ hdepth
  have horigQ : ∀ p ∈ t.fetched ++ rest,
      FetchOrigin o maxD seed (t.fetched ++ [(url, depth)]) p := by
    intro p hpmem
    refine FetchOrigin.mono hfsub (horig p ?_)
    rcases List.mem_append.mp hpmem with h1 | h1
    · exact List.mem_append_left _ h1
    · exact List.mem_append_right _ (hq ▸ List.mem_cons_of_mem _ h1)
  have horigSelf : FetchOrigin o maxD seed (t.fetched ++ [(url, depth)]) (url, depth) :=
    FetchOrigin.mono hfsub
      (horig (url, depth) (List.mem_append_right _ (hq ▸ List.mem_cons_self _ _)))
  by_cases hv : stripRight '/' url ∈ t.visited
  · simp only [crawlStep, hq, if_pos hv]
    refine ⟨hqd', hfd, ?_⟩
    intro p hpmem
    apply horig
    rcases List.mem_append.mp hpmem with h1 | h1
    · exact List.mem_append_left _ h1
    · exact List.mem_append_right _ (hq ▸ List.mem_cons_of_mem _ h1)
  · simp only [crawlStep, hq, if_neg hv]
    rcases hpg : (o url).page with _ | page
    · simp only [hpg, recordNetFailure]
      refine ⟨hqd', hfd', ?_⟩
      intro p hpmem
      rcases List.mem_append.mp hpmem with h1 | h1
      · rcases List.mem_append.mp h1 with h2 | h2
        · exact horigQ p (List.mem_append_left _ h2)
        · simp only [List.mem_singleton] at h2
          exact h2 ▸ horigSelf
      · exact horigQ p (List.mem_append_right _ h1)
    · simp only [hpg]
      by_cases hs : page.status_code = 200
      · simp only [if_pos hs, recordSuccess]
        by_cases hd : depth < maxD
        · simp only [if_pos hd]
          refine ⟨?_, hfd', ?_⟩
          · intro q hqmem
            rcases List.mem_append.mp hqmem with h1 | h1
            · exact hqd' q h1
            · obtain ⟨l, _, hl2⟩ := List.mem_map.mp h1
              subst hl2
              exact hd
          · intro p hpmem
            rcases List.mem_append.mp hpmem with h1 | h1
            · rcases List.mem_append.mp h1 with h2 | h2
              · exact horigQ p (List.mem_append_left _ h2)
              · simp only [List.mem_singleton] at h2
                exact h2 ▸ horigSelf
            · rcases List.mem_append.mp h1 with h2 | h2
              · exact horigQ p (List.mem_append_right _ h2)
              · obtain ⟨l, hl1, hl2⟩ := List.mem_map.mp h2
                subst hl2
                exact Or.inr ⟨(url, depth),
                  List.mem_append_right _ (List.mem_singleton.mpr rfl),
                  hd, rfl, page, hpg, hs, List.mem_of_mem_filter hl1⟩
        · simp only [if_neg hd]
          refine ⟨hqd', hfd', ?_⟩
          intro p hpmem
          rcases List.mem_append.mp hpmem with h1 | h1
          · rcases List.mem_append.mp h1 with h2 | h2
            · exact horigQ p (List.mem_append_left _ h2)
            · simp only [List.mem_singleton] at h2
              exact h2 ▸ horigSelf
          · exact horigQ p (List.mem_append_right _ h1)
      · simp only [if_neg hs, recordHttpFailure]
        refine ⟨hqd', hfd', ?_⟩
        intro p hpmem
        rcases List.mem_append.mp hpmem with h1 | h1
        · rcases List.mem_append.mp h1 with h2 | h2
          · exact horigQ p (List.mem_append_left _ h2)
          · simp only [List.mem_singleton] at h2
            exact h2 ▸ horigSelf
        · exact horigQ p (List.mem_append_right _ h1)

/-- C3.  For every recursive job with `max_depth = N`: (i) every fetched URL
is fetched at depth at most `N`, the depth tag being its hop count from the
seed along internal links — by (ii) each fetch is either the seed at depth 0
or an internal link of a 200 page fetched at a strictly smaller depth below
`N`, one hop deeper; and (iii) a page fetched at depth `N` enqueues nothing
on the frontier while its internal links are still merged into the job's
outgoing-link accumulator. -/
theorem crawl_depth_bound (o : String → ScrapePageResult)
    (u2f : String → String → String) (maxD : Nat) (seed : String) (fuel : Nat)
    (s : CrawlState) (h : crawlLoop o u2f maxD fuel (initState seed) = some s) :
    (∀ p ∈ s.fetched, p.2 ≤ maxD) ∧
    (∀ p ∈ s.fetched, FetchOrigin o maxD seed s.fetched p) ∧
    (∀ t : CrawlState, ∀ url rest, ∀ page : ScrapedPage,
      t.queue = (url, maxD) :: rest →
      stripRight '/' url ∉ t.visited →
      (o url).page = some page → page.status_code = 200 →
      (crawlStep o u2f maxD t).queue = rest ∧
      ∀ l ∈ page.internal_links, l ∈ (crawlStep o u2f maxD t).all_internal) := by
  have hinv : DepthOriginInv o maxD seed s := by
    refine crawlLoop_inv o u2f maxD (DepthOriginInv o maxD seed)
      (crawlStep_depthOriginInv o u2f maxD seed) fuel _ s h ⟨?_, ?_, ?_⟩
    · intro q hq
      simp only [initState, List.mem_singleton] at hq
      exact hq ▸ Nat.zero_le _
    · intro p hp
      simp [initState] at hp
    · intro p hp
      simp only [initState, List.nil_append, List.mem_singleton] at hp
      exact Or.inl hp
  obtain ⟨_, hfd, horig⟩ := hinv
  refine ⟨hfd, ?_, ?_⟩
  · intro p hp
    exact horig p (List.mem_append_left _ hp)
  · intro t url rest page ht hv hpg hs
    constructor
    · simp only [crawlStep, ht, if_neg hv, hpg, if_pos hs, recordSuccess,
        Nat.lt_irrefl, if_false]
    · intro l hl
      simp only [crawlStep, ht, if_neg hv, hpg, if_pos hs, recordSuccess]
      exact List.mem_append_right _ hl

/-- Fetch oracle for the depth-bound witness: every URL is unreachable. -/
def c3_oracle : String → ScrapePageResult :=
  fun _ => ⟨none, none, some "down", "static_http"⟩

/-- Path oracle for the depth-bound witness. -/
def c3_u2f : String → String → String := fun u e => u ++ e

/-- Terminal state of the crawl driven by `c3_oracle` from seed
`https://b.org/s` with `max_depth = 0`. -/
def c3_state : CrawlState :=
  { visited := ["https://b.org/s"]
    queue := []
    all_internal := []
    all_external := []
    all_social := []
    files_created := []
    errors := ["Failed to fetch: https://b.org/s (down)"]
    url_results := [("https://b.org/s",
                     { status := "failed", error_code := none, error_message := some "down"
                       handler := "static_http" })]
    fetched := [("https://b.org/s", 0)] }

/-- Witness for C3 at a concrete crawl: the seed is fetched at depth 0, the
bound for a `max_depth = 0` job. -/
theorem crawl_depth_bound_witness :
    (("https://b.org/s", 0) : String × Nat).2 ≤ 0 :=
  (crawl_depth_bound c3_oracle c3_u2f 0 "https://b.org/s" 2 c3_state (by decide)).1
    ("https://b.org/s", 0) (by decide)

/-- C1 invariant: per-URL statuses are `success` or `failed`, and while no
fetch has succeeded the run is either still at its initial state or has
halted after the single seed fetch, with an error recorded and — when that
failure carries no HTTP code — no file persisted. -/
def ZeroSuccessInv (seed : String) (s : CrawlState) : Prop :=
  (∀ p ∈ s.url_results, p.2.status = "success" ∨ p.2.status = "failed") ∧
  ((∀ p ∈ s.url_results, p.2.status ≠ "success") →
    (s.url_results = [] ∧ s.visited = [] ∧ s.queue = [(seed, 0)] ∧
       s.files_created = [] ∧ s.errors = []) ∨
    (s.queue = [] ∧ s.url_results ≠ [] ∧ s.errors ≠ [] ∧
       ((∃ p ∈ s.url_results, p.2.error_code = none) → s.files_created = [])))

lemma crawlStep_zeroSuccessInv (o : String → ScrapePageResult)
    (u2f : String → String → String) (maxD : Nat) (seed : String) (t : CrawlState)
    (hne : t.queue ≠ []) (hp : ZeroSuccessInv seed t) :
    ZeroSuccessInv seed (crawlStep o u2f maxD t) := by
  obtain ⟨hwf, hshape⟩ := hp
  rcases hq : t.queue with _ | ⟨⟨url, depth⟩, rest⟩
  · exact absurd hq hne
  by_cases hv : stripRight '/' url ∈ t.visited
  · simp only [crawlStep, hq, if_pos hv]
    refine ⟨hwf, ?_⟩
    intro hns
    rcases hshape hns with ⟨_, hvis, hqe, _, _⟩ | ⟨hqe, _, _, _⟩
    · rw [hvis] at hv
      simp at hv
    · rw [hqe] at hq
      simp at hq
  · simp only [crawlStep, hq, if_neg hv]
    rcases hpg : (o url).page with _ | page
    · simp only [hpg, recordNetFailure]
      constructor
      · intro p hpmem
        rcases List.mem_append.mp hpmem with h1 | h1
        · exact hwf p h1
        · simp only [List.mem_singleton] at h1
          exact h1 ▸ Or.inr rfl
      · intro hns
        have hnst : ∀ p ∈ t.url_results, p.2.status ≠ "success" :=
          fun p hpm => hns p (List.mem_append_left _ hpm)
        rcases hshape hnst with ⟨hur, _, hqe, hfl, _⟩ | ⟨hqe, _, _, _⟩
        · rw [hq] at hqe
          obtain ⟨h1, h2⟩ := List.cons.injEq .. ▸ hqe
          refine Or.inr ⟨?_, by simp, by simp [hur], fun _ => hfl⟩
          simpa using h2.symm ▸ rfl
        · rw [hqe] at hq
          simp at hq
    · simp only [hpg]
      by_cases hs : page.status_code = 200
      · simp only [if_pos hs, recordSuccess]
        constructor
        · intro p hpmem
          rcases List.mem_append.mp hpmem with h1 | h1
          · exact hwf p h1
          · simp only [List.mem_singleton] at h1
            exact h1 ▸ Or.inl rfl
        · intro hns
          exact absurd rfl
            (hns (url, ⟨"success", none, none, (o url).handler⟩)
              (List.mem_append_right _ (List.mem_singleton.mpr rfl)))
      · simp only [if_neg hs, recordHttpFailure]
        constructor
        · intro p hpmem
          rcases List.mem_append.mp hpmem with h1 | h1
          · exact hwf p h1
          · simp only [List.mem_singleton] at h1
            exact h1 ▸ Or.inr rfl
        · intro hns
          have hnst : ∀ p ∈ t.url_results, p.2.status ≠ "success" :=
            fun p hpm => hns p (List.mem_append_left _ hpm)
          rcases hshape hnst with ⟨hur, _, hqe, _, _⟩ | ⟨hqe, _, _, _⟩
          · rw [hq] at hqe
            obtain ⟨h1, h2⟩ := List.cons.injEq .. ▸ hqe
            refine Or.inr ⟨by simpa using h2.symm ▸ rfl, by simp, by simp [hur], ?_⟩
            rintro ⟨p, hpm, hpc⟩
            rw [hur] at hpm
            simp only [List.nil_append, List.mem_singleton] at hpm
            rw [hpm] at hpc
            simp at hpc
          · rw [hqe] at hq
            simp at hq

lemma deriveStatus_zero_success (s : CrawlState)
    (hall : ∀ p ∈ s.url_results, p.2.status = "failed")
    (hne : s.url_results ≠ []) :
    ((∀ p ∈ s.url_results, p.2.error_code ≠ none) → deriveStatus s = "completed") ∧
    ((∃ p ∈ s.url_results, p.2.error_code = none) → s.files_created = [] →
      s.errors ≠ [] → deriveStatus s = "failed") := by
  have hfilter : (s.url_results.map Prod.snd).filter (fun r => r.status == "failed") =
      s.url_results.map Prod.snd := by
    apply List.filter_eq_self.mpr
    intro r hr
    obtain ⟨p, hp, hpe⟩ := List.mem_map.mp hr
    rw [← hpe]
    simp [hall p hp]
  have hmapne : s.url_results.map Prod.snd ≠ [] := by
    simpa using hne
  have hnotempty :
      (!((s.url_results.map Prod.snd).filter (fun r => r.status == "failed")).isEmpty) = true := by
    rw [hfilter]
    simp [List.isEmpty_iff, hmapne]
  constructor
  · intro hcoded
    have hallsome : ((s.url_results.map Prod.snd).filter
        (fun r => r.status == "failed")).all (fun r => r.error_code.isSome) = true := by
      rw [hfilter, List.all_eq_true]
      intro r hr
      obtain ⟨p, hp, hpe⟩ := List.mem_map.mp hr
      rw [← hpe]
      exact Option.isSome_iff_ne_none.mpr (hcoded p hp)
    simp only [deriveStatus, hnotempty, hallsome, Bool.and_true, Bool.true_and,
      Bool.or_true, Bool.true_or, if_true]
    split <;> simp
  · rintro ⟨p, hp, hpc⟩ hfiles herr
    have hmemf : p.2 ∈ (s.url_results.map Prod.snd).filter (fun r => r.status == "failed") := by
      rw [hfilter]
      exact List.mem_map.mpr ⟨p, hp, rfl⟩
    have hallfalse : ((s.url_results.map Prod.snd).filter
        (fun r => r.status == "failed")).all (fun r => r.error_code.isSome) = false := by
      refine Bool.eq_false_iff.mpr (fun hcontra => ?_)
      rw [List.all_eq_true] at hcontra
      have := hcontra _ hmemf
      rw [hpc] at this
      simp at this
    have herrne : s.errors.isEmpty = false :=
      Bool.eq_false_iff.mpr (fun h => herr (List.isEmpty_iff.mp h))
    simp [deriveStatus, hfiles, hallfalse, herrne]

/-- C1.  For every crawl job — recursive or single — with zero successful
fetches: if every per-URL failure record carries an HTTP error code the
terminal status is `completed`, and if at least one per-URL failure is a
pure network failure (absent `error_code`) the terminal status is
`failed`. -/
theorem crawl_zero_success_status (o : String → ScrapePageResult)
    (u2f : String → String → String) (seed : String) (maxD fuel : Nat)
    (r : ScrapeOutcome) (hr : scrape_recursive o u2f seed maxD fuel = some r) :
    ((∀ p ∈ r.url_results, p.2.status ≠ "success") →
      ((∀ p ∈ r.url_results, p.2.status = "failed" → p.2.error_code ≠ none) →
        r.status = "completed") ∧
      ((∃ p ∈ r.url_results, p.2.status = "failed" ∧ p.2.error_code = none) →
        r.status = "failed")) ∧
    ((∀ p ∈ (scrape_single o u2f seed).url_results, p.2.status ≠ "success") →
      ((∀ p ∈ (scrape_single o u2f seed).url_results,
          p.2.status = "failed" → p.2.error_code ≠ none) →
        (scrape_single o u2f seed).status = "completed") ∧
      ((∃ p ∈ (scrape_single o u2f seed).url_results,
          p.2.status = "failed" ∧ p.2.error_code = none) →
        (scrape_single o u2f seed).status = "failed")) := by
  constructor
  · obtain ⟨s, hloop, hfin⟩ := Option.map_eq_some'.mp hr
    have hterm : s.queue = [] := crawlLoop_queue_eq_nil o u2f maxD fuel _ s hloop
    have hinv : ZeroSuccessInv seed s := by
      refine crawlLoop_inv o u2f maxD (ZeroSuccessInv seed)
        (crawlStep_zeroSuccessInv o u2f maxD seed) fuel _ s hloop ⟨?_, ?_⟩
      · intro p hp
        simp [initState] at hp
      · intro _
        exact Or.inl ⟨rfl, rfl, rfl, rfl, rfl⟩
    obtain ⟨hwf, hshape⟩ := hinv
    have hrur : r.url_results = s.url_results := by
      rw [← hfin]
      rfl
    have hrstat : r.status = deriveStatus s := by
      rw [← hfin]
      rfl
    have hrfiles : r.files_created = s.files_created := by
      rw [← hfin]
      rfl
    intro hns
    rw [hrur] at hns
    rcases hshape hns with ⟨_, _, hqe, _, _⟩ | ⟨_, hne, herr, himpl⟩
    · rw [hterm] at hqe
      simp at hqe
    · have hall : ∀ p ∈ s.url_results, p.2.status = "failed" :=
        fun p hp => (hwf p hp).resolve_left (hns p hp)
      have hder := deriveStatus_zero_success s hall hne
      constructor
      · intro hcoded
        rw [hrstat]
        exact hder.1 (fun p hp => hcoded p (hrur ▸ hp) (hall p hp))
      · rintro ⟨p, hp, _, hpc⟩
        rw [hrur] at hp
        rw [hrstat]
        exact hder.2 ⟨p, hp, hpc⟩ (himpl ⟨p, hp, hpc⟩) herr
  · rcases hpg : (o seed).page with _ | page
    · rcases hec : (o seed).error_code with _ | c
      · simp only [scrape_single, hpg, hec]
        intro _
        refine ⟨?_, ?_⟩
        · intro hcoded
          have := hcoded (seed, ⟨"failed", none, (o seed).error_message, (o seed).handler⟩)
            (by rw [← hec]; exact List.mem_singleton.mpr rfl) rfl
          simp at this
        · intro _
          simp
      · simp only [scrape_single, hpg, hec]
        intro _
        refine ⟨fun _ => by simp, ?_⟩
        rintro ⟨p, hp, _, hpc⟩
        rw [← hec] at hp
        simp only [List.mem_singleton] at hp
        rw [hp, hec] at hpc
        simp at hpc
    · by_cases hs : page.status_code = 200
      · simp only [scrape_single, hpg, if_pos hs]
        intro hns
        exact absurd rfl
          (hns (seed, ⟨"success", none, none, (o seed).handler⟩)
            (List.mem_singleton.mpr rfl))
      · simp only [scrape_single, hpg, if_neg hs]
        intro _
        refine ⟨fun _ => by trivial, ?_⟩
        rintro ⟨p, hp, _, hpc⟩
        simp only [List.mem_singleton] at hp
        rw [hp] at hpc
        simp at hpc

/-- Fetch oracle for the status witness: the seed is a pure network
failure. -/
def c1_oracle : String → ScrapePageResult :=
  fun _ => ⟨none, none, some "timeout", "static_http"⟩

/-- Path oracle for the status witness. -/
def c1_u2f : String → String → String := fun u e => u ++ e

/-- Outcome of the recursive crawl driven by `c1_oracle` from seed
`https://a.com/x`. -/
def c1_outcome : ScrapeOutcome :=
  { status := "failed", pages_scraped := 0, files_created := []
    visited_urls := ["https://a.com/x"]
    url_results := [("https://a.com/x",
      { status := "failed", error_code := none, error_message := some "timeout"
        handler := "static_http" })]
    internal := [], external := [], social := []
    errors := ["Failed to fetch: https://a.com/x (timeout)"]
    handler := some "static_http" }

/-- Witness for C1 at a concrete crawl: zero successes with a pure network
failure yields a `failed` job. -/
theorem crawl_zero_success_status_witness : c1_outcome.status = "failed" :=
  ((crawl_zero_success_status c1_oracle c1_u2f "https://a.com/x" 0 1 c1_outcome
      (by decide)).1 (by decide)).2
    ⟨("https://a.com/x",
      { status := "failed", error_code := none, error_message := some "timeout"
        handler := "static_http" }), by decide, rfl, rfl⟩

lemma pySortedSet_nil : pySortedSet [] = [] := by
  simp [pySortedSet]

lemma pySortedSet_singleton (x : String) : pySortedSet [x] = [x] := by
  simp [pySortedSet, List.insertionSort, List.orderedInsert]

/-- With `max_depth = 0` the very first loop iteration empties the frontier:
a successful seed enqueues nothing and a failed seed has nothing to
enqueue. -/
lemma crawlStep_init_zero_queue (o : String → ScrapePageResult)
    (u2f : String → String → String) (seed : String) :
    (crawlStep o u2f 0 (initState seed)).queue = [] := by
  simp only [crawlStep, initState]
  rw [if_neg (by simp)]
  rcases hpg : (o seed).page with _ | page
  · simp [recordNetFailure]
  · simp only
    by_cases hs : page.status_code = 200
    · simp [if_pos hs, recordSuccess]
    · simp [if_neg hs, recordHttpFailure]

/-- A `max_depth = 0` recursive run is the finish of one loop iteration. -/
lemma scrape_recursive_zero_closed (o : String → ScrapePageResult)
    (u2f : String → String → String) (seed : String) (fuel : Nat)
    (r : ScrapeOutcome) (h : scrape_recursive o u2f seed 0 fuel = some r) :
    r = finishRecursive seed (crawlStep o u2f 0 (initState seed)) := by
  obtain ⟨s, hloop, hfin⟩ := Option.map_eq_some'.mp h
  cases fuel with
  | zero => simp [crawlLoop, initState] at hloop
  | succ n =>
    have hne : (initState seed).queue.isEmpty = false := by simp [initState]
    rw [crawlLoop, hne] at hloop
    simp only [Bool.false_eq_true, if_false] at hloop
    rw [crawlLoop_nil_queue o u2f 0 n _ (crawlStep_init_zero_queue o u2f seed),
      Option.some.injEq] at hloop
    rw [← hfin, ← hloop]

/-- C4 (amended).  Single mode agrees with the recursive algorithm at
`max_depth = 0` on status, files created, per-URL results, the three
outgoing-link buckets and the handler; `visited_urls` agree after
trailing-slash normalization; the error lists agree in length (their message
texts differ); and the page counts differ in derivation — the recursive run
counts every persisted file (including the audit copy of a non-200
response), single mode counts only successful fetches. -/
theorem single_refines_recursive_depth0 (o : String → ScrapePageResult)
    (u2f : String → String → String) (seed : String) (fuel : Nat)
    (r : ScrapeOutcome) (hr : scrape_recursive o u2f seed 0 fuel = some r) :
    r.status = (scrape_single o u2f seed).status ∧
    r.files_created = (scrape_single o u2f seed).files_created ∧
    r.url_results = (scrape_single o u2f seed).url_results ∧
    r.internal = (scrape_single o u2f seed).internal ∧
    r.external = (scrape_single o u2f seed).external ∧
    r.social = (scrape_single o u2f seed).social ∧
    r.handler = (scrape_single o u2f seed).handler ∧
    r.visited_urls = (scrape_single o u2f seed).visited_urls.map (stripRight '/') ∧
    r.errors.length = (scrape_single o u2f seed).errors.length ∧
    r.pages_scraped = r.files_created.length ∧
    (scrape_single o u2f seed).pages_scraped =
      ((scrape_single o u2f seed).url_results.filter
        (fun p => p.2.status == "success")).length := by
  have hclosed := scrape_recursive_zero_closed o u2f seed fuel r hr
  subst hclosed
  rcases hpg : (o seed).page with _ | page
  · rcases hec : (o seed).error_code with _ | c <;>
      simp [scrape_single, hpg, hec, crawlStep, initState, recordNetFailure,
        finishRecursive, deriveStatus, pySortedSet_nil, pySortedSet_singleton]
  · by_cases hs : page.status_code = 200
    · simp [scrape_single, hpg, hs, crawlStep, initState, recordSuccess,
        finishRecursive, deriveStatus, pySortedSet_nil, pySortedSet_singleton]
    · simp [scrape_single, hpg, hs, crawlStep, initState, recordHttpFailure,
        finishRecursive, deriveStatus, pySortedSet_nil, pySortedSet_singleton]

/-- Fetch oracle for the C4 counterexample: every URL answers HTTP 404. -/
def c4x_oracle : String → ScrapePageResult := fun u =>
  ⟨some { url := u, title := "t", content := "c", status_code := 404
          extension := ".html", handler := "static_http" },
    some 404, some "HTTP 404", "static_http"⟩

/-- Path oracle for the C4 counterexample. -/
def c4x_u2f : String → String → String := fun u e => u ++ e

/-- Outcome of the recursive `max_depth = 0` crawl driven by `c4x_oracle`. -/
def c4x_rec : ScrapeOutcome :=
  { status := "completed", pages_scraped := 1
    files_created := ["https://a.com/x.html"]
    visited_urls := ["https://a.com/x"]
    url_results := [("https://a.com/x",
      { status := "failed", error_code := some 404, error_message := some "HTTP 404"
        handler := "static_http" })]
    internal := [], external := [], social := []
    errors := ["Non-200 response for https://a.com/x: HTTP 404"]
    handler := some "static_http" }

/-- Counterexample to C4 as stated: on an HTTP-404 seed, single mode and the
recursive algorithm at `max_depth = 0` disagree on `pages_scraped` (0 versus
1, the recursive run counting the persisted audit copy of the 404 body) and
on the error message text. -/
theorem single_vs_recursive_depth0_cex :
    scrape_recursive c4x_oracle c4x_u2f "https://a.com/x" 0 1 = some c4x_rec ∧
    c4x_rec.pages_scraped = 1 ∧
    (scrape_single c4x_oracle c4x_u2f "https://a.com/x").pages_scraped = 0 ∧
    (scrape_single c4x_oracle c4x_u2f "https://a.com/x").errors ≠ c4x_rec.errors := by
  exact ⟨by decide, rfl, rfl, by decide⟩

/-- Fetch oracle for the C4 witness: the seed succeeds with no links. -/
def c4w_oracle : String → ScrapePageResult := fun u =>
  ⟨some { url := u, title := "t", content := "c", status_code := 200
          extension := ".html", handler := "static_http" },
    none, none, "static_http"⟩

/-- Path oracle for the C4 witness. -/
def c4w_u2f : String → String → String := fun u e => u ++ e

/-- Outcome of the recursive `max_depth = 0` crawl driven by `c4w_oracle`. -/
def c4w_rec : ScrapeOutcome :=
  { status := "completed", pages_scraped := 1
    files_created := ["https://a.com/y.html"]
    visited_urls := ["https://a.com/y"]
    url_results := [("https://a.com/y",
      { status := "success", error_code := none, error_message := none
        handler := "static_http" })]
    internal := [], external := [], social := []
    errors := []
    handler := some "static_http" }

/-- Witness for the amended C4 at a concrete crawl. -/
theorem single_refines_recursive_depth0_witness :
    c4w_rec.status = (scrape_single c4w_oracle c4w_u2f "https://a.com/y").status :=
  (single_refines_recursive_depth0 c4w_oracle c4w_u2f "https://a.com/y" 1 c4w_rec
    (by decide)).1

/-- C5 (amended).  For an anchor link that survives normalization and the
self-reference check, the ignore-list test runs first and drops the link no
matter how it would be bucketed; a surviving link then lands in exactly one
bucket with priority social (host in the configured social domains), then
internal (host equals the base host and path prefixed by the base path),
else external. -/
theorem extract_links_classification (cfg : LinkConfig) (base_url : String)
    (p : ParsedUrl) (hs : p.scheme = "http" ∨ p.scheme = "https")
    (hself : unparseNormalized p ≠ stripRight '/' base_url) :
    (is_ignored cfg (unparseNormalized p) = true →
       extract_links cfg base_url [p] = ([], [], [])) ∧
    (is_ignored cfg (unparseNormalized p) = false →
       (p.netloc ∈ cfg.social_domains →
          extract_links cfg base_url [p] = ([], [], [unparseNormalized p])) ∧
       (p.netloc ∉ cfg.social_domains →
          ((p.netloc = (parseUrl base_url).netloc ∧
              pyStartsWith p.path (stripRight '/' (parseUrl base_url).path) = true) →
             extract_links cfg base_url [p] = ([unparseNormalized p], [], [])) ∧
          (¬(p.netloc = (parseUrl base_url).netloc ∧
              pyStartsWith p.path (stripRight '/' (parseUrl base_url).path) = true) →
             extract_links cfg base_url [p] = ([], [unparseNormalized p], [])))) := by
  have hschemeF : (!(p.scheme == "http" || p.scheme == "https")) = false := by
    rcases hs with h | h <;> simp [h]
  have hselfF : (unparseNormalized p == stripRight '/' base_url) = false := by
    simp [hself]
  refine ⟨?_, ?_⟩
  · intro hig
    simp [extract_links, hschemeF, hselfF, hig]
  · intro hig
    refine ⟨?_, ?_⟩
    · intro hsoc
      rcases hs with h | h <;>
        simp [extract_links, hschemeF, hselfF, hig, hsoc, h, hself]
    · intro hsoc
      refine ⟨?_, ?_⟩
      · rintro ⟨hnet, hpath⟩
        have hsoc' : (parseUrl base_url).netloc ∉ cfg.social_domains := hnet ▸ hsoc
        rcases hs with h | h <;>
          simp [extract_links, hschemeF, hselfF, hig, hsoc, hsoc', hnet, hpath, h, hself]
      · intro hint
        rcases hs with h | h <;>
          simp [extract_links, hschemeF, hselfF, hig, hsoc, hint, h, hself]

/-- Link configuration for the C5 counterexample: `x.com` is both a social
domain and on the ignore list. -/
def c5_cfg : LinkConfig := ⟨["x.com"], ["https://x.com"]⟩

/-- Anchor for the C5 counterexample. -/
def c5_link : ParsedUrl := ⟨"https", "x.com", "/foo", ""⟩

/-- Counterexample to C5 as stated: a link that survives normalization and
the self-reference check and whose host is a configured social domain is
nevertheless dropped from all three buckets, because the ignore-list test
runs before bucketing — the claim allows the exclude list to drop only
would-be external links. -/
theorem extract_links_social_ignored_cex :
    c5_link.scheme = "https" ∧
    unparseNormalized c5_link ≠ stripRight '/' "https://docs.a.com/bounty" ∧
    c5_link.netloc ∈ c5_cfg.social_domains ∧
    extract_links c5_cfg "https://docs.a.com/bounty" [c5_link] = ([], [], []) := by
  decide

/-- Link configuration for the C5 witness: `x.com` social, nothing
ignored. -/
def c5w_cfg : LinkConfig := ⟨["x.com"], []⟩

/-- Anchor for the C5 witness. -/
def c5w_link : ParsedUrl := ⟨"https", "x.com", "/foo", ""⟩

/-- Witness for the amended C5: a non-ignored social-domain link lands in
the social bucket. -/
theorem extract_links_classification_witness :
    extract_links c5w_cfg "https://docs.a.com/bounty" [c5w_link] =
      ([], [], [unparseNormalized c5w_link]) :=
  ((extract_links_classification c5w_cfg "https://docs.a.com/bounty" c5w_link
      (Or.inr rfl) (by decide)).2 (by decide)).1 (by decide)

/-! ## Handler resolution: C6 -/

lemma resolveAux_eq_find (domain : String) :
    ∀ reg : List (List String × String),
      resolveAux domain reg = (reg.find? (fun e => entryMatches domain e.1)).map Prod.snd := by
  intro reg
  induction reg with
  | nil => rfl
  | cons e t ih =>
    rcases e with ⟨patterns, h⟩
    by_cases hm : entryMatches domain patterns
    · simp [resolveAux, hm]
    · simp [resolveAux, hm, ih]

/-- C6.  Handler resolution scans the registered `(pattern-set, handler)`
entries in registration order and returns the first handler having a
non-wildcard pattern that is a case-insensitive substring of the URL's host;
with no such entry it returns the default `static_http` handler — so
resolution is total and agrees with the specification-side `resolveSpec`. -/
theorem resolve_matches_registration_order (registry : List (List String × String))
    (url : String) : resolve registry url = resolveSpec registry url := by
  simp only [resolve, resolveSpec]
  rw [resolveAux_eq_find]
  cases hf : registry.find? (fun e => entryMatches (lowerStr (netlocOf url)) e.1) <;>
    simp [hf]

/-! ## Store idempotence: C7 -/

lemma addByKey_key_mem {α κ : Type} [DecidableEq κ] (key : α → κ) (k : κ) :
    ∀ (new cur : List α),
      k ∈ (addByKey key cur new).map key ↔ k ∈ cur.map key ∨ k ∈ new.map key := by
  intro new
  induction new with
  | nil =>
    intro cur
    simp [addByKey]
  | cons e t ih =>
    intro cur
    show k ∈ (addByKey key (if key e ∈ cur.map key then cur else cur ++ [e]) t).map key ↔ _
    rw [ih]
    by_cases hm : key e ∈ cur.map key
    · simp only [if_pos hm, List.map_cons, List.mem_cons]
      constructor
      · rintro (h | h)
        · exact Or.inl h
        · exact Or.inr (Or.inr h)
      · rintro (h | h | h)
        · exact Or.inl h
        · exact Or.inl (h ▸ hm)
        · exact Or.inr h
    · simp only [if_neg hm, List.map_append, List.map_cons, List.map_nil,
        List.mem_append, List.mem_cons, List.mem_singleton]
      tauto

lemma addByKey_nop {α κ : Type} [DecidableEq κ] (key : α → κ) :
    ∀ (new cur : List α), (∀ e ∈ new, key e ∈ cur.map key) →
      addByKey key cur new = cur := by
  intro new
  induction new with
  | nil =>
    intro cur _
    rfl
  | cons e t ih =>
    intro cur h
    show addByKey key (if key e ∈ cur.map key then cur else cur ++ [e]) t = cur
    rw [if_pos (h e (List.mem_cons_self _ _))]
    exact ih cur (fun x hx => h x (List.mem_cons_of_mem _ hx))

lemma addByKey_idem {α κ : Type} [DecidableEq κ] (key : α → κ) (cur new : List α) :
    addByKey key (addByKey key cur new) new = addByKey key cur new :=
  addByKey_nop key new _
    (fun e he => (addByKey_key_mem key (key e) new cur).mpr
      (Or.inr (List.mem_map_of_mem key he)))

/-- C7.  Adding is idempotent per natural key: an entry whose URL already
occurs in the index (or queue, or suggestions) leaves that collection
unchanged; a link whose `(url, source_url)` pair already occurs leaves the
discovered links unchanged; and adding the same batch twice equals adding it
once, for all four collections. -/
theorem add_idempotent :
    (∀ (index : List IndexEntry) (e : IndexEntry),
        e.url ∈ index.map (fun x => x.url) → add_to_index index [e] = index) ∧
    (∀ (index entries : List IndexEntry),
        add_to_index (add_to_index index entries) entries = add_to_index index entries) ∧
    (∀ (queue : List QueueEntry) (e : QueueEntry),
        e.url ∈ queue.map (fun x => x.url) → add_to_queue queue [e] = queue) ∧
    (∀ (queue entries : List QueueEntry),
        add_to_queue (add_to_queue queue entries) entries = add_to_queue queue entries) ∧
    (∀ (suggestions : List Suggestion) (s : Suggestion),
        s.url ∈ suggestions.map (fun x => x.url) →
          add_suggestions suggestions [s] = suggestions) ∧
    (∀ (suggestions new_suggestions : List Suggestion),
        add_suggestions (add_suggestions suggestions new_suggestions) new_suggestions =
          add_suggestions suggestions new_suggestions) ∧
    (∀ (links : List DiscoveredLink) (l : DiscoveredLink),
        (l.url, l.source_url) ∈ links.map (fun x => (x.url, x.source_url)) →
          add_links links [l] = links) ∧
    (∀ (links new_links : List DiscoveredLink),
        add_links (add_links links new_links) new_links = add_links links new_links) := by
  refine ⟨?_, ?_, ?_, ?_, ?_, ?_, ?_, ?_⟩
  · intro index e h
    refine addByKey_nop _ [e] index ?_
    intro x hx
    rw [List.mem_singleton] at hx
    exact hx ▸ h
  · intro index entries
    exact addByKey_idem _ index entries
  · intro queue e h
    refine addByKey_nop _ [e] queue ?_
    intro x hx
    rw [List.mem_singleton] at hx
    exact hx ▸ h
  · intro queue entries
    exact addByKey_idem _ queue entries
  · intro suggestions s h
    refine addByKey_nop _ [s] suggestions ?_
    intro x hx
    rw [List.mem_singleton] at hx
    exact hx ▸ h
  · intro suggestions new_suggestions
    exact addByKey_idem _ suggestions new_suggestions
  · intro links l h
    refine addByKey_nop _ [l] links ?_
    intro x hx
    rw [List.mem_singleton] at hx
    exact hx ▸ h
  · intro links new_links
    exact addByKey_idem _ links new_links

/-- Index entry used by the idempotence witness. -/
def c7_entry : IndexEntry :=
  { url := "https://a.com", bounty_id := 1, scraped_at := "", location := "" }

/-- Witness for C7: re-adding an already-indexed URL changes nothing. -/
theorem add_idempotent_witness : add_to_index [c7_entry] [c7_entry] = [c7_entry] :=
  add_idempotent.1 [c7_entry] c7_entry (by decide)

/-! ## Record validation: C8 -/

/-- C8.  Every record constructor rejects a URL missing its `http` scheme at
construction time with a validation error naming the offending value, and
accepts a scheme-bearing URL with otherwise valid fields; `QueueEntry`
additionally rejects a `max_depth` outside `[0, 9]`. -/
theorem record_url_validation :
    (∀ (b : Int) (url src : String) (cats : List String) (ty : SuggestionType)
        (mode : Option String) (md : Option Int) (da : Option String),
      (pyStartsWith url "http" = false →
        Suggestion.make b url src cats ty mode md da = .error ("Invalid URL: " ++ url)) ∧
      (pyStartsWith url "http" = true → 0 < b →
        (Suggestion.make b url src cats ty mode md da).isOk = true)) ∧
    (∀ (b : Int) (url : String) (mode : ScrapeMode) (md : Int) (src : String)
        (cats : List String) (ty : String) (da : Option String),
      (pyStartsWith url "http" = false →
        QueueEntry.make b url mode md src cats ty da = .error ("Invalid URL: " ++ url)) ∧
      (pyStartsWith url "http" = true → 0 < b → 0 ≤ md → md ≤ 9 →
        (QueueEntry.make b url mode md src cats ty da).isOk = true) ∧
      (pyStartsWith url "http" = true → 0 < b → (md < 0 ∨ 9 < md) →
        QueueEntry.make b url mode md src cats ty da =
          .error ("Invalid max_depth: " ++ toString md))) ∧
    (∀ (url : String) (b : Int) (sa loc src : String) (cats : List String)
        (ty : String) (da : Option String) (st : String) (ec : Option Int)
        (em : Option String),
      (pyStartsWith url "http" = false →
        IndexEntry.make url b sa loc src cats ty da st ec em =
          .error ("Invalid URL: " ++ url)) ∧
      (pyStartsWith url "http" = true → 0 < b → (st = "success" ∨ st = "failed") →
        (IndexEntry.make url b sa loc src cats ty da st ec em).isOk = true)) ∧
    (∀ (url surl : String) (b : Int) (cats : List String) (da : String),
      (pyStartsWith url "http" = false →
        DiscoveredLink.make url surl b cats da = .error ("Invalid URL: " ++ url)) ∧
      (pyStartsWith url "http" = true → pyStartsWith surl "http" = true → 0 < b →
        (DiscoveredLink.make url surl b cats da).isOk = true)) := by
  refine ⟨?_, ?_, ?_, ?_⟩
  · intro b url src cats ty mode md da
    constructor
    · intro hu
      simp [Suggestion.make, hu]
    · intro hu hb
      simp [Suggestion.make, hu, not_le.mpr hb, Except.isOk, Except.toBool]
  · intro b url mode md src cats ty da
    refine ⟨?_, ?_, ?_⟩
    · intro hu
      simp [QueueEntry.make, hu]
    · intro hu hb h0 h9
      have hd : ¬(md < 0 ∨ md > 9) := by omega
      simp [QueueEntry.make, hu, not_le.mpr hb, hd, Except.isOk, Except.toBool]
    · intro hu hb hd
      simp [QueueEntry.make, hu, not_le.mpr hb, hd]
  · intro url b sa loc src cats ty da st ec em
    constructor
    · intro hu
      simp [IndexEntry.make, hu]
    · intro hu hb hst
      have hstb : (st == "success" || st == "failed") = true := by
        rcases hst with h | h <;> simp [h]
      simp [IndexEntry.make, hu, not_le.mpr hb, hstb, Except.isOk, Except.toBool]
  · intro url surl b cats da
    constructor
    · intro hu
      simp [DiscoveredLink.make, hu]
    · intro hu hs hb
      simp [DiscoveredLink.make, hu, hs, not_le.mpr hb, Except.isOk, Except.toBool]

/-- Witness for C8 at concrete records. -/
theorem record_url_validation_witness :
    Suggestion.make 1 "ftp://x" "s" [] .scrape none none none =
      .error ("Invalid URL: " ++ "ftp://x") ∧
    (Suggestion.make 1 "https://x" "s" [] .scrape none none none).isOk = true ∧
    QueueEntry.make 1 "https://x" .single 10 "s" [] "scrape" none =
      .error ("Invalid max_depth: " ++ toString (10 : Int)) ∧
    (IndexEntry.make "https://x" 1 "" "" "s" [] "scrape" none "failed" none none).isOk
      = true ∧
    (DiscoveredLink.make "https://x" "https://y" 1 [] "").isOk = true :=
  ⟨(record_url_validation.1 1 "ftp://x" "s" [] .scrape none none none).1 (by decide),
   (record_url_validation.1 1 "https://x" "s" [] .scrape none none none).2
     (by decide) (by decide),
   (record_url_validation.2.1 1 "https://x" .single 10 "s" [] "scrape" none).2.2
     (by decide) (by decide) (by decide),
   (record_url_validation.2.2.1 "https://x" 1 "" "" "s" [] "scrape" none "failed"
     none none).2 (by decide) (by decide) (Or.inr rfl),
   (record_url_validation.2.2.2 "https://x" "https://y" 1 [] "").2
     (by decide) (by decide) (by decide)⟩

/-! ## Static fetch error codes: C9 -/

/-- C9.  The static HTTP handler returns a non-nil `error_code` exactly when
it returns a page whose status code differs from 200, and a network-level
failure (no page) always comes back with a nil `error_code` and a non-nil
textual `error_message`. -/
theorem static_fetch_error_code_iff (titleOf : HttpResponse → String → String)
    (env : String → Except String HttpResponse) (url : String) :
    ((static_fetch titleOf env url).2.1 ≠ none ↔
      ∃ pg, (static_fetch titleOf env url).1 = some pg ∧ pg.status_code ≠ 200) ∧
    ((static_fetch titleOf env url).1 = none →
      (static_fetch titleOf env url).2.1 = none ∧
      (static_fetch titleOf env url).2.2 ≠ none) := by
  rcases henv : env url with e | resp
  · simp [static_fetch, henv]
  · by_cases hs : resp.status_code = 200
    · simp [static_fetch, henv, hs]
    · simp [static_fetch, henv, hs]

/-- Title extractor for the C9 witness. -/
def c9_titleOf : HttpResponse → String → String := fun _ _ => "t"

/-- Network for the C9 witness: the request raises. -/
def c9_env : String → Except String HttpResponse := fun _ => .error "conn refused"

/-- Witness for C9: a raised request yields no page, no error code, and a
textual message. -/
theorem static_fetch_error_code_iff_witness :
    (static_fetch c9_titleOf c9_env "https://a.com").2.1 = none ∧
    (static_fetch c9_titleOf c9_env "https://a.com").2.2 ≠ none :=
  (static_fetch_error_code_iff c9_titleOf c9_env "https://a.com").2 rfl

/-! ## Categorization totality: C10 -/

lemma pySortedSet_nodup (l : List String) : (pySortedSet l).Nodup :=
  ((List.perm_insertionSort _ l.dedup).nodup_iff).mpr (List.nodup_dedup l)

lemma pySortedSet_sorted (l : List String) :
    (pySortedSet l).Sorted (fun a b => a ≤ b) :=
  List.sorted_insertionSort _ l.dedup

lemma pySortedSet_ne_nil (l : List String) (h : l ≠ []) : pySortedSet l ≠ [] := by
  intro hcontra
  have hlen := (List.perm_insertionSort (fun a b => a ≤ b) l.dedup).length_eq
  rw [show List.insertionSort (fun a b => a ≤ b) l.dedup = pySortedSet l from rfl,
    hcontra] at hlen
  exact h ((List.dedup_eq_nil _).mp (List.length_eq_zero.mp hlen.symm))

lemma catFold_nil (s : String) :
    ∀ (pats : List (String × List String)) (init : List String),
      (∀ pc ∈ pats, substrB (lowerStr pc.1) s = false) →
      pats.foldl (fun acc pc => if substrB (lowerStr pc.1) s then acc ++ pc.2 else acc)
        init = init := by
  intro pats
  induction pats with
  | nil =>
    intro init _
    rfl
  | cons pc t ih =>
    intro init h
    show t.foldl _ (if substrB (lowerStr pc.1) s then init ++ pc.2 else init) = init
    rw [h pc (List.mem_cons_self _ _)]
    simp only [Bool.false_eq_true, if_false]
    exact ih init (fun x hx => h x (List.mem_cons_of_mem _ hx))

/-- C10.  `categorize_url` is total and returns a non-empty, duplicate-free,
sorted category list; when the `urlparse` call raises, and when no domain or
path pattern matches, the result is exactly `["other"]`. -/
theorem categorize_url_total_sorted (cfg : CatConfig)
    (parsed : Except String (String × String)) :
    categorize_url cfg parsed ≠ [] ∧
    (categorize_url cfg parsed).Nodup ∧
    (categorize_url cfg parsed).Sorted (fun a b => a ≤ b) ∧
    (∀ e, parsed = .error e → categorize_url cfg parsed = ["other"]) ∧
    (∀ netloc path, parsed = .ok (netloc, path) →
      (∀ pc ∈ cfg.domain_categories, substrB (lowerStr pc.1) (lowerStr netloc) = false) →
      (∀ pc ∈ cfg.path_categories, substrB (lowerStr pc.1) (lowerStr path) = false) →
      categorize_url cfg parsed = ["other"]) := by
  rcases parsed with e | ⟨netloc, path⟩
  · refine ⟨by simp [categorize_url], by simp [categorize_url], ?_, ?_, ?_⟩
    · simp [categorize_url]
    · intro _ _
      rfl
    · intro _ _ h
      exact absurd h (by simp)
  · have hshape : categorize_url cfg (.ok (netloc, path)) =
        pySortedSet (if (cfg.path_categories.foldl
            (fun acc pc => if substrB (lowerStr pc.1) (lowerStr path) then acc ++ pc.2 else acc)
            (cfg.domain_categories.foldl
              (fun acc pc => if substrB (lowerStr pc.1) (lowerStr netloc) then acc ++ pc.2 else acc)
              [])).isEmpty then ["other"]
          else (cfg.path_categories.foldl
            (fun acc pc => if substrB (lowerStr pc.1) (lowerStr path) then acc ++ pc.2 else acc)
            (cfg.domain_categories.foldl
              (fun acc pc => if substrB (lowerStr pc.1) (lowerStr netloc) then acc ++ pc.2 else acc)
              []))) := rfl
    refine ⟨?_, ?_, ?_, ?_, ?_⟩
    · rw [hshape]
      apply pySortedSet_ne_nil
      split
      · simp
      · next hne =>
        exact fun hc => by simp [hc] at hne
    · rw [hshape]
      exact pySortedSet_nodup _
    · rw [hshape]
      exact pySortedSet_sorted _
    · intro _ h
      exact absurd h (by simp)
    · intro n p hok hdom hpath
      injection hok with h1
      injection h1 with h2 h3
      subst h2
      subst h3
      rw [hshape, catFold_nil _ _ _ hpath, catFold_nil _ _ _ hdom]
      simp [pySortedSet_singleton]

/-- Category configuration for the C10 witness. -/
def c10_cfg : CatConfig := ⟨[("github", ["code"])], [("blog", ["news"])]⟩

/-- Witness for C10: a raising `urlparse` yields exactly `["other"]`. -/
theorem categorize_url_total_sorted_witness :
    categorize_url c10_cfg (.error "boom") = ["other"] :=
  (categorize_url_total_sorted c10_cfg (.error "boom")).2.2.2.1 "boom" rfl

end BountyArchive
